import Mathlib

/-!
# Shortcut-launcher screen-share signaling core: shallow embedding

This file embeds the signaling relay (`relay-server/server.js`) and the
client-side screen-share session controller (`renderer/screenshare.js`)
as executable Lean definitions, and settles the specification claims
about them.

Modelling conventions:
* The relay's `clients` JS `Map` is an association list in insertion
  order; `Map.set` replaces in place (keeping the original position) or
  appends, `Map.get` is a first-match lookup, `Map.delete` removes.
* A WebSocket is represented by the boolean `wsOpen` on the client
  record; `send(ws, data)` delivers its message only when
  `ws.readyState === OPEN`, so delivery is conditional on `wsOpen`.
* Message handlers return the new state together with the ordered list
  of deliveries `(recipient channel id, message)` they produced.
* JS `undefined` fields of parsed JSON messages are `Option.none`.
-/

namespace Relay

/-- One entry of the relay's `clients` map: the per-connection metadata
stored at `server.js:33-38`, plus the open/closed state of the
underlying WebSocket. -/
structure ClientRec where
  wsOpen : Bool
  username : String
  isSharing : Bool
  connectedAt : Nat
  deriving Repr, DecidableEq

/-- The relay's `clients` map: association list in JS-`Map` insertion
order, client id to record. -/
abbrev Clients := List (String × ClientRec)

/-- `clients.get(id)`: first-match lookup. -/
def mget (cs : Clients) (k : String) : Option ClientRec :=
  match cs with
  | [] => none
  | (k', r) :: rest => if k' = k then some r else mget rest k

/-- `clients.set(id, rec)`: replace in place if the key exists (JS `Map`
keeps the original insertion position), otherwise append. -/
def mset (cs : Clients) (k : String) (r : ClientRec) : Clients :=
  match cs with
  | [] => [(k, r)]
  | (k', r') :: rest =>
      if k' = k then (k, r) :: rest else (k', r') :: mset rest k r

/-- `clients.delete(id)`: remove the entry with the given key. -/
def mdel (cs : Clients) (k : String) : Clients :=
  match cs with
  | [] => []
  | (k', r') :: rest => if k' = k then rest else (k', r') :: mdel rest k

/-- The discriminator of a WebRTC signaling message the relay forwards
untouched: `offer`, `answer` or `ice-candidate`. -/
inductive RtcKind | offer | answer | iceCandidate
  deriving Repr, DecidableEq

/-- An `offer`/`answer`/`ice-candidate` message as the relay sees it:
a `type` tag, a `targetId`, a possibly already-present `senderId`
(which the relay's spread `{...message, senderId}` overrides) and the
remaining fields, opaque to the relay, collapsed into `payload`. -/
structure RtcMsg where
  kind : RtcKind
  targetId : Option String
  senderId : Option String
  payload : String
  deriving Repr, DecidableEq

/-- Inbound messages of `handleMessage` (`server.js:72-132`).
`unknown` stands for any unrecognised `message.type`. -/
inductive InMsg
  | setUsername (username : Option String)
  | startSharing
  | stopSharing
  | requestStream (targetId : Option String)
  | rtc (m : RtcMsg)
  | unknown
  deriving Repr, DecidableEq

/-- One row of the `user-list` snapshot built at `server.js:135-140`. -/
structure UserEntry where
  id : String
  username : String
  isSharing : Bool
  connectedAt : Nat
  deriving Repr, DecidableEq

/-- Messages the relay sends to clients. -/
inductive OutMsg
  | connected (clientId : String)
  | userList (users : List UserEntry)
  | streamRequest (viewerId viewerUsername : String)
  | rtcFwd (m : RtcMsg)
  deriving Repr, DecidableEq

/-- A delivery: (recipient channel id, message). Produced only when the
recipient's WebSocket is open, mirroring the `readyState === OPEN`
checks in `send` and `broadcastUserList`. -/
abbrev Output := String × OutMsg

/-- The full-directory snapshot of `broadcastUserList`
(`server.js:135-140`): every client, in map order. -/
def snapshot (cs : Clients) : List UserEntry :=
  cs.map fun p => ⟨p.1, p.2.username, p.2.isSharing, p.2.connectedAt⟩

/-- One message to every client whose socket is open, in map order: the
`clients.forEach` loop of `broadcastUserList`. -/
def sendAllOpen (cs : Clients) (m : OutMsg) : List Output :=
  (cs.filter fun p => p.2.wsOpen).map fun p => (p.1, m)

/-- `broadcastUserList` (`server.js:134-152`): send the full snapshot to
every client whose socket is open. -/
def broadcastUserList (cs : Clients) : List Output :=
  sendAllOpen cs (OutMsg.userList (snapshot cs))

/-- `send(ws, data)` for a recipient we already looked up: delivers only
when the socket is open (`server.js:154-158`). -/
def sendTo (cid : String) (r : ClientRec) (m : OutMsg) : List Output :=
  if r.wsOpen then [(cid, m)] else []

/-- `handleMessage(senderId, message)` (`server.js:72-132`): returns the
new `clients` map and the deliveries produced, in order. -/
def handleMessage (senderId : String) (msg : InMsg) (cs : Clients) :
    Clients × List Output :=
  match mget cs senderId with
  | none => (cs, [])
  | some client =>
    match msg with
    | .setUsername u =>
        -- `client.username = message.username || 'Anonymous'`
        let name := match u with
          | some s => if s = "" then "Anonymous" else s
          | none => "Anonymous"
        let cs' := mset cs senderId { client with username := name }
        (cs', broadcastUserList cs')
    | .startSharing =>
        let cs' := mset cs senderId { client with isSharing := true }
        (cs', broadcastUserList cs')
    | .stopSharing =>
        let cs' := mset cs senderId { client with isSharing := false }
        (cs', broadcastUserList cs')
    | .requestStream targetId =>
        match targetId with
        | none => (cs, [])
        | some tid =>
          match mget cs tid with
          | none => (cs, [])
          | some target =>
              if target.isSharing then
                (cs, sendTo tid target
                  (.streamRequest senderId client.username))
              else (cs, [])
    | .rtc m =>
        match m.targetId with
        | none => (cs, [])
        | some tid =>
          match mget cs tid with
          | none => (cs, [])
          | some recipient =>
              (cs, sendTo tid recipient
                (.rtcFwd { m with senderId := some senderId }))
    | .unknown => (cs, [])

/-- Longest-possible-prefix `String.substring(from, to)` on the decoded
character list, as used by `generateId`. -/
def jsSubstring (s : String) (from' to' : Nat) : String :=
  String.mk ((s.toList.drop from').take (to' - from'))

/-- `generateId` (`server.js:160-163`): the two arguments are the
`Math.random().toString(36)` renderings of the two random draws; the id
is the concatenation of their `substring(2, 15)` slices. No lookup of
the existing `clients` map is performed. -/
def generateId (r1 r2 : String) : String :=
  jsSubstring r1 2 15 ++ jsSubstring r2 2 15

/-- The record inserted for a fresh connection (`server.js:33-38`). -/
def freshRec (now : Nat) : ClientRec :=
  { wsOpen := true, username := "Anonymous", isSharing := false, connectedAt := now }

/-- The `wss.on('connection')` handler (`server.js:28-48`): insert the
session under the generated id, send `connected` to the new channel,
then broadcast the user list. -/
def connect (cid : String) (now : Nat) (cs : Clients) : Clients × List Output :=
  let cs' := mset cs cid (freshRec now)
  (cs', (cid, OutMsg.connected cid) :: broadcastUserList cs')

/-- The `ws.on('close')` / `ws.on('error')` handlers (`server.js:59-69`):
delete the session, broadcast the user list. -/
def disconnect (cid : String) (cs : Clients) : Clients × List Output :=
  let cs' := mdel cs cid
  (cs', broadcastUserList cs')

end Relay

namespace Share

/-!
Embedding of `renderer/screenshare.js` (`class ScreenShareManager`).
`RTCPeerConnection` and `MediaStream` objects live in arenas
(append-only lists indexed by `Nat` handles), so that an object closed
or dropped from `peerConnections` is still observable, as a JS object
is until garbage-collected. `peerConnections` is the manager's JS `Map`
from peer id to the handle of the connection object.
-/

/-- `RTCPeerConnection.connectionState`. -/
inductive ConnState
  | new | connecting | connected | disconnected | failed | closed
  deriving Repr, DecidableEq

/-- Which method created a peer connection, hence which
`onconnectionstatechange` closure is registered on it:
`handleStreamRequest` (sharer side, closure over the viewer id,
`screenshare.js:482-492`) or `handleOffer` (viewer side, log-only,
`screenshare.js:592-594`). -/
inductive Role
  | sharerLink (viewerId : String)
  | viewerLink (peerId : String)
  deriving Repr, DecidableEq

/-- A peer-connection object. -/
structure PC where
  connState : ConnState
  role : Role
  deriving Repr, DecidableEq

/-- A media track; `track.stop()` sets `stopped`. -/
structure Track where
  stopped : Bool
  deriving Repr, DecidableEq

/-- A media stream: a list of tracks. -/
structure Stream where
  tracks : List Track
  deriving Repr, DecidableEq

/-- Default peer connection for arena reads. -/
def dPC : PC := ⟨.new, .viewerLink ""⟩

/-- Default stream for arena reads. -/
def dStream : Stream := ⟨[]⟩

/-- Messages the manager sends to the relay through `sendMessage`. -/
inductive ClientMsg
  | setUsername (username : String)
  | startSharingMsg
  | stopSharingMsg
  | requestStream (targetId : String)
  | offerMsg (targetId : String)
  | answerMsg (targetId : String)
  | iceCandidateMsg (targetId : String)
  deriving Repr, DecidableEq

/-- The mutable fields of `ScreenShareManager` the signaling core uses,
plus the two object arenas. `wsOpen` is true when `this.ws` exists and
its `readyState` is `OPEN`. `remoteSink` is `remote-video.srcObject`. -/
structure Mgr where
  isConnected : Bool
  wsOpen : Bool
  isSharing : Bool
  localStream : Option Nat
  peerConnections : List (String × Nat)
  streams : List Stream
  pcs : List PC
  remoteSink : Option Nat
  deriving Repr, DecidableEq

/-- `Map.get` on `peerConnections`. -/
def pget (m : List (String × Nat)) (k : String) : Option Nat :=
  match m with
  | [] => none
  | (k', v) :: rest => if k' = k then some v else pget rest k

/-- `Map.set` on `peerConnections`. -/
def pset (m : List (String × Nat)) (k : String) (v : Nat) : List (String × Nat) :=
  match m with
  | [] => [(k, v)]
  | (k', v') :: rest =>
      if k' = k then (k, v) :: rest else (k', v') :: pset rest k v

/-- `Map.delete` on `peerConnections`. -/
def pdel (m : List (String × Nat)) (k : String) : List (String × Nat) :=
  match m with
  | [] => []
  | (k', v') :: rest => if k' = k then rest else (k', v') :: pdel rest k

/-- Update the arena entry at index `i` (no-op out of range). -/
def modifyAt (l : List PC) (i : Nat) (f : PC → PC) : List PC :=
  match l, i with
  | [], _ => []
  | p :: ps, 0 => f p :: ps
  | p :: ps, n + 1 => p :: modifyAt ps n f

/-- `pc.close()` on the arena entry at handle `h`. -/
def closePC (pcs : List PC) (h : Nat) : List PC :=
  modifyAt pcs h fun pc => { pc with connState := .closed }

/-- `this.peerConnections.forEach((pc) => pc.close())`. -/
def closeAll (pcs : List PC) (hs : List Nat) : List PC :=
  hs.foldl closePC pcs

/-- `stream.getTracks().forEach(track => track.stop())` on the arena
entry at handle `h`. -/
def stopTracksAt (ss : List Stream) (h : Nat) : List Stream :=
  match ss, h with
  | [], _ => []
  | s :: rest, 0 => ⟨s.tracks.map fun _ => ⟨true⟩⟩ :: rest
  | s :: rest, n + 1 => s :: stopTracksAt rest n

/-- `sendMessage(message)` (`screenshare.js:204-208`): sends only when
`this.ws` exists and is open. -/
def sendMessageM (m : Mgr) (msg : ClientMsg) : List ClientMsg :=
  if m.wsOpen then [msg] else []

/-- `stopSharing()` (`screenshare.js:399-423`): stop every local track,
close every peer connection and clear the map, announce `stop-sharing`
when connected, clear the sharing flag. -/
def stopSharing (m : Mgr) : Mgr × List ClientMsg :=
  let streams' := match m.localStream with
    | some h => stopTracksAt m.streams h
    | none => m.streams
  let pcs' := closeAll m.pcs (m.peerConnections.map Prod.snd)
  let out := if m.isConnected then sendMessageM m .stopSharingMsg else []
  ({ m with
      localStream := none
      streams := streams'
      pcs := pcs'
      peerConnections := []
      isSharing := false }, out)

/-- `handleStreamRequest(viewerId, viewerUsername)`
(`screenshare.js:449-514`): ignore when not sharing or without a local
stream; otherwise create a peer connection for the viewer (registering
the sharer-side state-change closure), record it in the map, and send
an offer addressed to the viewer. -/
def handleStreamRequest (m : Mgr) (viewerId : String) : Mgr × List ClientMsg :=
  if !m.isSharing || m.localStream.isNone then (m, [])
  else
    let h := m.pcs.length
    let pcs' := m.pcs ++ [{ connState := .new, role := .sharerLink viewerId }]
    ({ m with
        pcs := pcs'
        peerConnections := pset m.peerConnections viewerId h },
     sendMessageM m (.offerMsg viewerId))

/-- `handleOffer(senderId, offer)` (`screenshare.js:516-620`): create a
peer connection for the sharer (registering the log-only viewer-side
state-change closure), record it in the map, and send an answer
addressed to the sharer. No previously held connection is closed. -/
def handleOffer (m : Mgr) (senderId : String) : Mgr × List ClientMsg :=
  let h := m.pcs.length
  let pcs' := m.pcs ++ [{ connState := .new, role := .viewerLink senderId }]
  ({ m with
      pcs := pcs'
      peerConnections := pset m.peerConnections senderId h },
   sendMessageM m (.answerMsg senderId))

/-- `viewUser(userId, username)` (`screenshare.js:647-659`): shows the
video player (UI only) and sends `request-stream`; the peer-connection
map and arenas are untouched. -/
def viewUser (m : Mgr) (userId : String) : Mgr × List ClientMsg :=
  (m, sendMessageM m (.requestStream userId))

/-- `closeVideoPlayer()` (`screenshare.js:661-678`): stop the tracks of
the remote sink stream, clear the sink, close every held peer
connection and clear the map. -/
def closeVideoPlayer (m : Mgr) : Mgr × List ClientMsg :=
  let streams' := match m.remoteSink with
    | some h => stopTracksAt m.streams h
    | none => m.streams
  let pcs' := closeAll m.pcs (m.peerConnections.map Prod.snd)
  ({ m with
      streams := streams'
      remoteSink := none
      pcs := pcs'
      peerConnections := [] }, [])

/-- The transport fires `onconnectionstatechange` on the connection at
handle `h` after its `connectionState` became `s`. The registered
closure then runs: the sharer-side one (`screenshare.js:482-492`)
deletes the viewer's map entry on `disconnected`/`failed` and refreshes
the viewer-count UI; the viewer-side one (`screenshare.js:592-594`)
only logs. Neither sends anything. -/
def onConnStateChange (m : Mgr) (h : Nat) (s : ConnState) : Mgr × List ClientMsg :=
  let pcs' := modifyAt m.pcs h fun pc => { pc with connState := s }
  match (m.pcs.getD h dPC).role with
  | .sharerLink viewerId =>
      if s = .disconnected ∨ s = .failed then
        ({ m with pcs := pcs', peerConnections := pdel m.peerConnections viewerId }, [])
      else ({ m with pcs := pcs' }, [])
  | .viewerLink _ => ({ m with pcs := pcs' }, [])

/-- A capturable desktop source as returned by
`electronAPI.getDesktopSources()`. -/
structure Source where
  id : String
  name : String
  deriving Repr, DecidableEq

/-- The environment `startSharing` runs against: whether the Electron
capture API exists, the source list it returns, the outcome of the
`getUserMedia` video capture for each source id (`none` = rejection),
and the outcome of the optional system-audio capture. -/
structure CaptureEnv where
  apiAvailable : Bool
  sources : List Source
  capture : String → Option Stream
  audioCapture : Option Track

/-- `startSharing()` (`screenshare.js:267-397`): acquire a capture
stream (preferring `screen*` sources, retrying once with the second
source on failure), then announce `start-sharing` and set the sharing
flag; on any acquisition failure report the error (`some errorMessage`)
without sending anything or touching the state. -/
def startSharing (env : CaptureEnv) (m : Mgr) :
    Mgr × List ClientMsg × Option String :=
  if !env.apiAvailable then (m, [], some "Screen capture not supported in this environment")
  else
    match env.sources with
    | [] => (m, [], some "No screen sources available. Try closing this app and reopening it.")
    | s0 :: rest =>
      let primary := (env.sources.find? fun s => s.id.startsWith "screen").getD s0
      let acquired : Option Stream :=
        match env.capture primary.id with
        | some vs =>
            -- optional system audio; failure tolerated
            some (match env.audioCapture with
                  | some a => ⟨vs.tracks ++ [a]⟩
                  | none => vs)
        | none =>
            match rest with
            | [] => none
            | s1 :: _ => env.capture s1.id
      match acquired with
      | none => (m, [], some "Failed to start screen sharing")
      | some stream =>
          ({ m with
              streams := m.streams ++ [stream]
              localStream := some m.streams.length
              isSharing := true },
           sendMessageM m .startSharingMsg, none)

/-- The acquisition-failure condition of `startSharing`: the capture
API is unavailable, there are no capturable sources, or the video
capture of the preferred source is rejected and so is the one retry
with the second source (when one exists). -/
def captureFails (env : CaptureEnv) : Bool :=
  !env.apiAvailable ||
    match env.sources with
    | [] => true
    | s0 :: rest =>
      let primary := (env.sources.find? fun s => s.id.startsWith "screen").getD s0
      match env.capture primary.id with
      | some _ => false
      | none =>
          match rest with
          | [] => true
          | s1 :: _ => (env.capture s1.id).isNone

end Share

/-! ## Shared lemmas -/

namespace Relay

/-- A successful `mget` lookup is a member of the association list. -/
theorem mget_mem {cs : Clients} {k : String} {r : ClientRec}
    (h : mget cs k = some r) : (k, r) ∈ cs := by
  induction cs with
  | nil => simp [mget] at h
  | cons p rest ih =>
      obtain ⟨k', r'⟩ := p
      by_cases hk : k' = k
      · subst hk
        simp [mget] at h
        simp [h]
      · simp [mget, hk] at h
        exact List.mem_cons_of_mem _ (ih h)

/-- `mset` with a key not yet present appends a fresh entry. -/
theorem mset_fresh {cs : Clients} {k : String} (r : ClientRec)
    (h : mget cs k = none) : mset cs k r = cs ++ [(k, r)] := by
  induction cs with
  | nil => rfl
  | cons p rest ih =>
      obtain ⟨k', r'⟩ := p
      by_cases hk : k' = k
      · subst hk; simp [mget] at h
      · simp [mget, hk] at h
        simp [mset, hk, ih h]

/-- `mget` after `mset` at the same key. -/
theorem mget_mset_self (cs : Clients) (k : String) (r : ClientRec) :
    mget (mset cs k r) k = some r := by
  induction cs with
  | nil => simp [mset, mget]
  | cons p rest ih =>
      obtain ⟨k', r'⟩ := p
      by_cases hk : k' = k
      · subst hk; simp [mset, mget]
      · simp [mset, mget, hk, ih]

/-- `mget` after `mset` at a different key. -/
theorem mget_mset_ne (cs : Clients) {k k' : String} (r : ClientRec)
    (h : k' ≠ k) : mget (mset cs k r) k' = mget cs k' :=  by
  induction cs with
  | nil => simp [mset, mget, Ne.symm h]
  | cons p rest ih =>
      obtain ⟨k'', r''⟩ := p
      by_cases hk : k'' = k
      · subst hk
        simp [mset, mget, Ne.symm h]
      · simp [mset, mget, hk, ih]

/-- The messages a given channel receives from a list of deliveries, in
order. -/
def deliveriesTo (out : List Output) (c : String) : List OutMsg :=
  (out.filter fun d => d.1 = c).map Prod.snd

/-- `set-username`, `start-sharing`, `stop-sharing`: the control
messages that mutate the Directory Store. -/
def isStateChanging : InMsg → Bool
  | .setUsername _ => true
  | .startSharing => true
  | .stopSharing => true
  | _ => false

/-- `request-stream`, `offer`, `answer`, `ice-candidate`: the pure
forwarding messages. -/
def isForwarding : InMsg → Bool
  | .requestStream _ => true
  | .rtc _ => true
  | _ => false

/-- A key missing from the association list receives nothing from
`sendAllOpen`. -/
theorem deliveriesTo_sendAllOpen_not_mem {cs : Clients} {c : String}
    (m : OutMsg) (hc : c ∉ cs.map Prod.fst) :
    deliveriesTo (sendAllOpen cs m) c = [] := by
  induction cs with
  | nil => rfl
  | cons p rest ih =>
      obtain ⟨k, r⟩ := p
      have hc1 : c ≠ k := fun h => hc (by simp [h])
      have hc2 : c ∉ rest.map Prod.fst := fun h => hc (by simp [h])
      by_cases hw : r.wsOpen = true
      · have hstep : sendAllOpen ((k, r) :: rest) m = (k, m) :: sendAllOpen rest m := by
          simp [sendAllOpen, hw]
        rw [hstep]
        have hskip : deliveriesTo ((k, m) :: sendAllOpen rest m) c =
            deliveriesTo (sendAllOpen rest m) c := by
          simp [deliveriesTo, Ne.symm hc1]
        rw [hskip]
        exact ih hc2
      · have hstep : sendAllOpen ((k, r) :: rest) m = sendAllOpen rest m := by
          simp [sendAllOpen, hw]
        rw [hstep]
        exact ih hc2

/-- With distinct keys, an open channel receives `m` exactly once from
`sendAllOpen`. -/
theorem deliveriesTo_sendAllOpen {cs : Clients} {c : String}
    {r : ClientRec} (m : OutMsg)
    (hnd : (cs.map Prod.fst).Nodup)
    (h : mget cs c = some r) (hw : r.wsOpen = true) :
    deliveriesTo (sendAllOpen cs m) c = [m] := by
  induction cs with
  | nil => simp [mget] at h
  | cons p rest ih =>
      obtain ⟨k, r'⟩ := p
      simp only [List.map_cons, List.nodup_cons] at hnd
      by_cases hk : k = c
      · subst hk
        simp [mget] at h
        have hw' : r'.wsOpen = true := by rw [h]; exact hw
        have hstep : sendAllOpen ((k, r') :: rest) m = (k, m) :: sendAllOpen rest m := by
          simp [sendAllOpen, hw']
        rw [hstep]
        have hrest := @deliveriesTo_sendAllOpen_not_mem rest k m hnd.1
        simp [deliveriesTo] at hrest ⊢
        exact hrest
      · simp [mget, hk] at h
        by_cases hw' : r'.wsOpen = true
        · have hstep : sendAllOpen ((k, r') :: rest) m = (k, m) :: sendAllOpen rest m := by
            simp [sendAllOpen, hw']
          rw [hstep]
          have hskip : deliveriesTo ((k, m) :: sendAllOpen rest m) c =
              deliveriesTo (sendAllOpen rest m) c := by
            simp [deliveriesTo, hk]
          rw [hskip]
          exact ih hnd.2 h
        · have hstep : sendAllOpen ((k, r') :: rest) m = sendAllOpen rest m := by
            simp [sendAllOpen, hw']
          rw [hstep]
          exact ih hnd.2 h

/-- Membership in the keys of `mset` comes from the new key or the old
keys. -/
theorem mem_keys_mset {cs : Clients} {k k' : String} {r : ClientRec}
    (h : k' ∈ (mset cs k r).map Prod.fst) :
    k' = k ∨ k' ∈ cs.map Prod.fst := by
  induction cs with
  | nil => simp [mset] at h; exact Or.inl h
  | cons p rest ih =>
      obtain ⟨k'', r''⟩ := p
      by_cases hk : k'' = k
      · rw [show mset ((k'', r'') :: rest) k r = (k, r) :: rest from by simp [mset, hk]] at h
        simp only [List.map_cons, List.mem_cons] at h
        rcases h with h | h
        · exact Or.inl h
        · exact Or.inr (by simp [h])
      · rw [show mset ((k'', r'') :: rest) k r = (k'', r'') :: mset rest k r from by
            simp [mset, hk]] at h
        simp only [List.map_cons, List.mem_cons] at h
        rcases h with h | h
        · exact Or.inr (by simp [h])
        · rcases ih h with h' | h'
          · exact Or.inl h'
          · exact Or.inr (by simp [h'])

/-- `mset` preserves distinctness of keys. -/
theorem keys_mset_nodup {cs : Clients} (k : String) (r : ClientRec)
    (hnd : (cs.map Prod.fst).Nodup) :
    ((mset cs k r).map Prod.fst).Nodup := by
  induction cs with
  | nil => simp [mset]
  | cons p rest ih =>
      obtain ⟨k', r'⟩ := p
      simp only [List.map_cons, List.nodup_cons] at hnd
      by_cases hk : k' = k
      · subst hk
        simpa [mset] using hnd
      · simp only [mset, hk, if_false, List.map_cons, List.nodup_cons]
        refine ⟨fun hmem => ?_, ih hnd.2⟩
        rcases mem_keys_mset hmem with h | h
        · exact hk h
        · exact hnd.1 h

end Relay

namespace Share

/-- `modifyAt` keeps the arena length. -/
theorem modifyAt_length (l : List PC) (i : Nat) (f : PC → PC) :
    (modifyAt l i f).length = l.length := by
  induction l generalizing i with
  | nil => rfl
  | cons p ps ih =>
      cases i with
      | zero => rfl
      | succ n => simp [modifyAt, ih]

/-- `modifyAt` at the modified index applies `f`. -/
theorem modifyAt_getD_self {l : List PC} {i : Nat} (f : PC → PC)
    (h : i < l.length) : (modifyAt l i f).getD i dPC = f (l.getD i dPC) := by
  induction l generalizing i with
  | nil => simp at h
  | cons p ps ih =>
      cases i with
      | zero => rfl
      | succ n =>
          simp only [List.length_cons, Nat.succ_lt_succ_iff] at h
          simpa [modifyAt] using ih h

/-- `modifyAt` elsewhere is the identity. -/
theorem modifyAt_getD_ne {l : List PC} {i j : Nat} (f : PC → PC)
    (h : i ≠ j) : (modifyAt l j f).getD i dPC = l.getD i dPC := by
  induction l generalizing i j with
  | nil => rfl
  | cons p ps ih =>
      cases j with
      | zero =>
          cases i with
          | zero => exact absurd rfl h
          | succ n => rfl
      | succ n =>
          cases i with
          | zero => rfl
          | succ k =>
              simpa [modifyAt] using ih (fun hh => h (by rw [hh]))

/-- `closeAll` keeps the arena length. -/
theorem closeAll_length (pcs : List PC) (hs : List Nat) :
    (closeAll pcs hs).length = pcs.length := by
  induction hs generalizing pcs with
  | nil => rfl
  | cons h t ih =>
      simp only [closeAll, List.foldl_cons] at ih ⊢
      rw [ih, closePC, modifyAt_length]

/-- An already-closed entry stays closed through `closeAll`. -/
theorem closeAll_preserves_closed {pcs : List PC} {i : Nat} (hs : List Nat)
    (h : ((pcs.getD i dPC)).connState = .closed) :
    ((closeAll pcs hs).getD i dPC).connState = .closed := by
  induction hs generalizing pcs with
  | nil => exact h
  | cons j t ih =>
      simp only [closeAll, List.foldl_cons] at ih ⊢
      apply ih
      by_cases hij : i = j
      · subst hij
        by_cases hlt : i < pcs.length
        · rw [closePC, modifyAt_getD_self _ hlt]
        · have hd : pcs.getD i dPC = dPC :=
            List.getD_eq_default _ _ (Nat.le_of_not_lt hlt)
          rw [hd] at h
          simp [dPC] at h
      · rwa [closePC, modifyAt_getD_ne _ hij]

/-- Every handle in the closed set is closed after `closeAll`. -/
theorem closeAll_closed {pcs : List PC} {i : Nat} {hs : List Nat}
    (hmem : i ∈ hs) (hlt : i < pcs.length) :
    ((closeAll pcs hs).getD i dPC).connState = .closed := by
  induction hs generalizing pcs with
  | nil => simp at hmem
  | cons j t ih =>
      simp only [closeAll, List.foldl_cons]
      rcases List.mem_cons.mp hmem with h | h
      · subst h
        apply closeAll_preserves_closed
        rw [closePC, modifyAt_getD_self _ hlt]
      · exact ih h (by rwa [closePC, modifyAt_length])

/-- All tracks of the stream at the stopped handle are stopped. -/
theorem stopTracksAt_stopped {ss : List Stream} {h : Nat}
    (hlt : h < ss.length) :
    ∀ tr ∈ ((stopTracksAt ss h).getD h dStream).tracks, tr.stopped = true := by
  induction ss generalizing h with
  | nil => simp at hlt
  | cons s rest ih =>
      cases h with
      | zero =>
          intro tr htr
          simp only [stopTracksAt, List.getD_cons_zero, List.mem_map] at htr
          obtain ⟨_, _, htr⟩ := htr
          rw [← htr]
      | succ n =>
          simp only [List.length_cons, Nat.succ_lt_succ_iff] at hlt
          intro tr htr
          exact ih hlt tr (by simpa [stopTracksAt] using htr)

/-- `pget` after `pdel` at a different key. -/
theorem pget_pdel_ne (m : List (String × Nat)) {k v : String}
    (h : k ≠ v) : pget (pdel m v) k = pget m k := by
  induction m with
  | nil => rfl
  | cons p rest ih =>
      obtain ⟨k', v'⟩ := p
      by_cases hk : k' = v
      · subst hk
        simp [pdel, pget, Ne.symm h]
      · simp [pdel, pget, hk, ih]

end Share

/-! ## Claims -/

/-- C1: a `request-stream` message with a `targetId` leaves the
Directory Store unchanged and results in a `stream-request` (carrying
`viewerId` = the sender's id and `viewerUsername` = the sender's
display name) delivered to exactly the target's channel if and only if
the target id is present in the store with `isSharing = true`; when the
target is absent, has no id, or is present with `isSharing = false`,
nothing is delivered to any channel and nothing is sent back to the
requester. (Stated for states where every stored channel is open, the
steady state the close/error handlers maintain.) -/
theorem C1_request_stream_gate
    (cs : Relay.Clients) (s : String) (tid : Option String)
    (client : Relay.ClientRec)
    (hs : Relay.mget cs s = some client)
    (hopen : ∀ p ∈ cs, p.2.wsOpen = true) :
    (Relay.handleMessage s (.requestStream tid) cs).1 = cs ∧
    (∀ t target, tid = some t → Relay.mget cs t = some target →
      target.isSharing = true →
      (Relay.handleMessage s (.requestStream tid) cs).2 =
        [(t, Relay.OutMsg.streamRequest s client.username)]) ∧
    (tid.bind (Relay.mget cs) = none →
      (Relay.handleMessage s (.requestStream tid) cs).2 = []) ∧
    (∀ t target, tid = some t → Relay.mget cs t = some target →
      target.isSharing = false →
      (Relay.handleMessage s (.requestStream tid) cs).2 = []) := by
  refine ⟨?_, ?_, ?_, ?_⟩
  · simp only [Relay.handleMessage, hs]
    cases tid with
    | none => rfl
    | some t =>
        cases h : Relay.mget cs t with
        | none => simp [h]
        | some target => by_cases hsh : target.isSharing <;> simp [h, hsh]
  · intro t target htid hmget hshare
    subst htid
    have hw : target.wsOpen = true := hopen (t, target) (Relay.mget_mem hmget)
    simp [Relay.handleMessage, hs, hmget, hshare, Relay.sendTo, hw]
  · intro hnone
    cases tid with
    | none => simp [Relay.handleMessage, hs]
    | some t =>
        simp only [Option.some_bind] at hnone
        simp [Relay.handleMessage, hs, hnone]
  · intro t target htid hmget hshare
    subst htid
    simp [Relay.handleMessage, hs, hmget, hshare]

/-- Witness for C1 at a concrete two-client store: a sharing target
receives the stream-request; a non-sharing target and an absent id
produce no delivery. -/
theorem C1_request_stream_gate_witness :
    (Relay.handleMessage "v" (.requestStream (some "a"))
        [("v", ⟨true, "Vera", false, 0⟩), ("a", ⟨true, "Ann", true, 0⟩)]).2 =
      [("a", Relay.OutMsg.streamRequest "v" "Vera")] ∧
    (Relay.handleMessage "v" (.requestStream (some "v"))
        [("v", ⟨true, "Vera", false, 0⟩), ("a", ⟨true, "Ann", true, 0⟩)]).2 = [] ∧
    (Relay.handleMessage "v" (.requestStream (some "zz"))
        [("v", ⟨true, "Vera", false, 0⟩), ("a", ⟨true, "Ann", true, 0⟩)]).2 = [] := by
  have h := C1_request_stream_gate
    [("v", ⟨true, "Vera", false, 0⟩), ("a", ⟨true, "Ann", true, 0⟩)]
    "v" (some "a") ⟨true, "Vera", false, 0⟩ (by decide) (by decide)
  have h2 := C1_request_stream_gate
    [("v", ⟨true, "Vera", false, 0⟩), ("a", ⟨true, "Ann", true, 0⟩)]
    "v" (some "v") ⟨true, "Vera", false, 0⟩ (by decide) (by decide)
  have h3 := C1_request_stream_gate
    [("v", ⟨true, "Vera", false, 0⟩), ("a", ⟨true, "Ann", true, 0⟩)]
    "v" (some "zz") ⟨true, "Vera", false, 0⟩ (by decide) (by decide)
  exact ⟨h.2.1 "a" ⟨true, "Ann", true, 0⟩ rfl (by decide) rfl,
    h2.2.2.2 "v" ⟨true, "Vera", false, 0⟩ rfl (by decide) rfl,
    h3.2.2.1 (by decide)⟩

/-- C2: for an `offer`/`answer`/`ice-candidate` message received from a
connected channel `s`, the relay leaves the Directory Store unchanged,
delivers at most one message, every delivery goes to the channel whose
id equals the message's `targetId` and carries the message with
`senderId := s` stamped and every other field (`kind`, `targetId`,
`payload`) verbatim; if no client with that id exists the message is
dropped silently, and if the target exists with an open channel it is
delivered exactly once to it. -/
theorem C2_rtc_targeted_forwarding
    (cs : Relay.Clients) (s : String) (msg : Relay.RtcMsg)
    (hs : Relay.mget cs s ≠ none) :
    (Relay.handleMessage s (.rtc msg) cs).1 = cs ∧
    (Relay.handleMessage s (.rtc msg) cs).2.length ≤ 1 ∧
    (∀ c om, (c, om) ∈ (Relay.handleMessage s (.rtc msg) cs).2 →
      msg.targetId = some c ∧
      om = Relay.OutMsg.rtcFwd { msg with senderId := some s }) ∧
    (msg.targetId.bind (Relay.mget cs) = none →
      (Relay.handleMessage s (.rtc msg) cs).2 = []) ∧
    (∀ t r, msg.targetId = some t → Relay.mget cs t = some r →
      r.wsOpen = true →
      (Relay.handleMessage s (.rtc msg) cs).2 =
        [(t, Relay.OutMsg.rtcFwd { msg with senderId := some s })]) := by
  obtain ⟨client, hc⟩ := Option.ne_none_iff_exists'.mp hs
  refine ⟨?_, ?_, ?_, ?_, ?_⟩
  · simp only [Relay.handleMessage, hc]
    cases htid : msg.targetId with
    | none => rfl
    | some t =>
        cases h : Relay.mget cs t with
        | none => simp [h]
        | some recipient => simp [h, Relay.sendTo]
  · simp only [Relay.handleMessage, hc]
    cases htid : msg.targetId with
    | none => simp
    | some t =>
        cases h : Relay.mget cs t with
        | none => simp [h]
        | some recipient =>
            simp only [h, Relay.sendTo]
            by_cases hw : recipient.wsOpen <;> simp [hw]
  · intro c om hmem
    simp only [Relay.handleMessage, hc] at hmem
    cases htid : msg.targetId with
    | none => rw [htid] at hmem; simp at hmem
    | some t =>
        rw [htid] at hmem
        cases h : Relay.mget cs t with
        | none => simp [h] at hmem
        | some recipient =>
            simp only [h, Relay.sendTo] at hmem
            by_cases hw : recipient.wsOpen
            · simp [hw] at hmem
              exact ⟨by rw [hmem.1], hmem.2⟩
            · simp [hw] at hmem
  · intro hnone
    cases htid : msg.targetId with
    | none => simp [Relay.handleMessage, hc, htid]
    | some t =>
        rw [htid] at hnone
        simp only [Option.some_bind] at hnone
        simp [Relay.handleMessage, hc, htid, hnone]
  · intro t r htid hmget hw
    simp [Relay.handleMessage, hc, htid, hmget, Relay.sendTo, hw]

/-- Witness for C2: a concrete `offer` is stamped with the sender's id
and delivered only to the target; with an absent target id nothing is
delivered. -/
theorem C2_rtc_targeted_forwarding_witness :
    (Relay.handleMessage "a" (.rtc ⟨.offer, some "v", none, "sdp"⟩)
        [("v", ⟨true, "Vera", false, 0⟩), ("a", ⟨true, "Ann", true, 0⟩)]).2 =
      [("v", Relay.OutMsg.rtcFwd ⟨.offer, some "v", some "a", "sdp"⟩)] ∧
    (Relay.handleMessage "a" (.rtc ⟨.offer, some "gone", none, "sdp"⟩)
        [("v", ⟨true, "Vera", false, 0⟩), ("a", ⟨true, "Ann", true, 0⟩)]).2 = [] := by
  have h := C2_rtc_targeted_forwarding
    [("v", ⟨true, "Vera", false, 0⟩), ("a", ⟨true, "Ann", true, 0⟩)]
    "a" ⟨.offer, some "v", none, "sdp"⟩ (by decide)
  have h2 := C2_rtc_targeted_forwarding
    [("v", ⟨true, "Vera", false, 0⟩), ("a", ⟨true, "Ann", true, 0⟩)]
    "a" ⟨.offer, some "gone", none, "sdp"⟩ (by decide)
  exact ⟨h.2.2.2.2 "v" ⟨true, "Vera", false, 0⟩ rfl (by decide) rfl,
    h2.2.2.2.1 (by decide)⟩

/-- C3 counterexample: `generateId` never consults the `clients` map,
so when the two `Math.random().toString(36)` draws of a new connection
repeat those of an earlier one, the generated id equals an id already
present in the Directory Store, and the connection handler's
`clients.set` silently overwrites the existing session's entry (here, a
session that had set the name "Bob" and was sharing). -/
theorem C3_counterexample :
    Relay.generateId "0.abc123" "0.def456" = "abc123def456" ∧
    (Relay.mget [("abc123def456", ⟨true, "Bob", true, 5⟩)]
        (Relay.generateId "0.abc123" "0.def456")).isSome = true ∧
    (Relay.connect (Relay.generateId "0.abc123" "0.def456") 9
        [("abc123def456", ⟨true, "Bob", true, 5⟩)]).1 =
      [("abc123def456", Relay.freshRec 9)] := by
  refine ⟨by decide, by decide, by decide⟩

/-- C3 (amended): the id of a new connection is built from two random
draws with no collision check against the Directory Store, so
uniqueness is only probabilistic. Whenever the generated id is not
already present in the store, the connection handler appends a fresh
entry for it, preserves every existing session's entry unchanged, and
stores the default session record under the new id; when the draws
repeat an existing id, that session's entry is silently overwritten
(see the counterexample). -/
theorem C3_fresh_id_no_overwrite
    (cs : Relay.Clients) (cid : String) (now : Nat)
    (hfresh : Relay.mget cs cid = none) :
    (Relay.connect cid now cs).1 = cs ++ [(cid, Relay.freshRec now)] ∧
    (∀ k, k ≠ cid → Relay.mget (Relay.connect cid now cs).1 k = Relay.mget cs k) ∧
    Relay.mget (Relay.connect cid now cs).1 cid = some (Relay.freshRec now) := by
  refine ⟨Relay.mset_fresh _ hfresh, ?_, Relay.mget_mset_self cs cid _⟩
  intro k hk
  exact Relay.mget_mset_ne cs _ hk

/-- Witness for the amended C3: connecting with a fresh id into a
one-session store appends and preserves the existing session. -/
theorem C3_fresh_id_no_overwrite_witness :
    Relay.mget [("a", ⟨true, "Ann", true, 0⟩)] "b" = none ∧
    (Relay.connect "b" 7 [("a", ⟨true, "Ann", true, 0⟩)]).1 =
      [("a", ⟨true, "Ann", true, 0⟩), ("b", Relay.freshRec 7)] ∧
    Relay.mget (Relay.connect "b" 7 [("a", ⟨true, "Ann", true, 0⟩)]).1 "a" =
      some ⟨true, "Ann", true, 0⟩ := by
  have h := C3_fresh_id_no_overwrite [("a", ⟨true, "Ann", true, 0⟩)] "b" 7 (by decide)
  exact ⟨by decide, h.1, h.2.1 "a" (by decide)⟩

/-- C4: a state-changing message (`set-username`, `start-sharing`,
`stop-sharing`) from a connected channel produces exactly the
`user-list` broadcast and nothing else, and (given the distinct ids the
relay maintains) every open channel receives the full snapshot of the
new Directory Store exactly once; a pure forwarding message
(`request-stream`, `offer`, `answer`, `ice-candidate`) produces no
`user-list` delivery at all; a channel open produces the `connected`
reply followed by exactly one broadcast, and a channel close/error
exactly one broadcast. -/
theorem C4_broadcast_discipline
    (cs : Relay.Clients) (s : String) (msg : Relay.InMsg)
    (cid : String) (now : Nat)
    (hs : Relay.mget cs s ≠ none)
    (hnd : (cs.map Prod.fst).Nodup) :
    (Relay.isStateChanging msg = true →
      (Relay.handleMessage s msg cs).2 =
        Relay.broadcastUserList (Relay.handleMessage s msg cs).1) ∧
    (Relay.isStateChanging msg = true →
      ∀ c r, Relay.mget (Relay.handleMessage s msg cs).1 c = some r →
        r.wsOpen = true →
        Relay.deliveriesTo (Relay.handleMessage s msg cs).2 c =
          [Relay.OutMsg.userList
            (Relay.snapshot (Relay.handleMessage s msg cs).1)]) ∧
    (Relay.isForwarding msg = true →
      ∀ d ∈ (Relay.handleMessage s msg cs).2, ∀ us,
        d.2 ≠ Relay.OutMsg.userList us) ∧
    ((Relay.connect cid now cs).2 =
      (cid, Relay.OutMsg.connected cid) ::
        Relay.broadcastUserList (Relay.connect cid now cs).1) ∧
    ((Relay.disconnect cid cs).2 =
      Relay.broadcastUserList (Relay.disconnect cid cs).1) := by
  obtain ⟨client, hc⟩ := Option.ne_none_iff_exists'.mp hs
  refine ⟨?_, ?_, ?_, rfl, rfl⟩
  · intro hsc
    cases msg with
    | setUsername u => simp [Relay.handleMessage, hc]
    | startSharing => simp [Relay.handleMessage, hc]
    | stopSharing => simp [Relay.handleMessage, hc]
    | requestStream tid => simp [Relay.isStateChanging] at hsc
    | rtc m => simp [Relay.isStateChanging] at hsc
    | unknown => simp [Relay.isStateChanging] at hsc
  · intro hsc c r hg hw
    cases msg with
    | setUsername u =>
        simp only [Relay.handleMessage, hc] at hg ⊢
        exact Relay.deliveriesTo_sendAllOpen _ (Relay.keys_mset_nodup s _ hnd) hg hw
    | startSharing =>
        simp only [Relay.handleMessage, hc] at hg ⊢
        exact Relay.deliveriesTo_sendAllOpen _ (Relay.keys_mset_nodup s _ hnd) hg hw
    | stopSharing =>
        simp only [Relay.handleMessage, hc] at hg ⊢
        exact Relay.deliveriesTo_sendAllOpen _ (Relay.keys_mset_nodup s _ hnd) hg hw
    | requestStream tid => simp [Relay.isStateChanging] at hsc
    | rtc m => simp [Relay.isStateChanging] at hsc
    | unknown => simp [Relay.isStateChanging] at hsc
  · intro hf d hd us
    cases msg with
    | setUsername u => simp [Relay.isForwarding] at hf
    | startSharing => simp [Relay.isForwarding] at hf
    | stopSharing => simp [Relay.isForwarding] at hf
    | unknown => simp [Relay.isForwarding] at hf
    | requestStream tid =>
        simp only [Relay.handleMessage, hc] at hd
        cases tid with
        | none => simp at hd
        | some t =>
            cases hm : Relay.mget cs t with
            | none => simp [hm] at hd
            | some target =>
                simp only [hm] at hd
                by_cases hsh : target.isSharing = true
                · simp only [hsh, if_true, Relay.sendTo] at hd
                  by_cases hw : target.wsOpen = true
                  · simp [hw] at hd
                    simp [hd]
                  · simp [hw] at hd
                · simp [hsh] at hd
    | rtc m =>
        simp only [Relay.handleMessage, hc] at hd
        cases htid : m.targetId with
        | none => rw [htid] at hd; simp at hd
        | some t =>
            rw [htid] at hd
            cases hm : Relay.mget cs t with
            | none => simp [hm] at hd
            | some recipient =>
                simp only [hm, Relay.sendTo] at hd
                by_cases hw : recipient.wsOpen = true
                · simp [hw] at hd
                  simp [hd]
                · simp [hw] at hd

/-- Witness for C4: `start-sharing` from a concrete two-client store
produces exactly the broadcast, and the other channel receives the full
snapshot once. -/
theorem C4_broadcast_discipline_witness :
    (Relay.handleMessage "a" Relay.InMsg.startSharing
        [("a", ⟨true, "Ann", false, 0⟩), ("b", ⟨true, "Bob", false, 1⟩)]).2 =
      Relay.broadcastUserList
        (Relay.handleMessage "a" Relay.InMsg.startSharing
          [("a", ⟨true, "Ann", false, 0⟩), ("b", ⟨true, "Bob", false, 1⟩)]).1 ∧
    Relay.deliveriesTo
        (Relay.handleMessage "a" Relay.InMsg.startSharing
          [("a", ⟨true, "Ann", false, 0⟩), ("b", ⟨true, "Bob", false, 1⟩)]).2 "b" =
      [Relay.OutMsg.userList
        (Relay.snapshot
          (Relay.handleMessage "a" Relay.InMsg.startSharing
            [("a", ⟨true, "Ann", false, 0⟩), ("b", ⟨true, "Bob", false, 1⟩)]).1)] := by
  have h := C4_broadcast_discipline
    [("a", ⟨true, "Ann", false, 0⟩), ("b", ⟨true, "Bob", false, 1⟩)]
    "a" Relay.InMsg.startSharing "c" 2 (by decide) (by decide)
  exact ⟨h.1 rfl, h.2.1 rfl "b" ⟨true, "Bob", false, 1⟩ (by decide) rfl⟩

/-- C10: a `set-username` whose `username` field is absent or empty
(JS-falsy for the string-valued field) resets the sender's
`displayName` to "Anonymous" — the same default `freshRec` assigns at
connect time — and then broadcasts the user list exactly as for any
rename. -/
theorem C10_falsy_username_resets_to_anonymous
    (cs : Relay.Clients) (s : String) (client : Relay.ClientRec)
    (u : Option String) (now : Nat)
    (hs : Relay.mget cs s = some client)
    (hfalsy : u = none ∨ u = some "") :
    (Relay.handleMessage s (.setUsername u) cs).1 =
      Relay.mset cs s { client with username := "Anonymous" } ∧
    Relay.mget (Relay.handleMessage s (.setUsername u) cs).1 s =
      some { client with username := "Anonymous" } ∧
    (Relay.handleMessage s (.setUsername u) cs).2 =
      Relay.broadcastUserList (Relay.handleMessage s (.setUsername u) cs).1 ∧
    (Relay.freshRec now).username = "Anonymous" := by
  rcases hfalsy with h | h <;> subst h <;>
    exact ⟨by simp [Relay.handleMessage, hs],
      by simp [Relay.handleMessage, hs, Relay.mget_mset_self],
      by simp [Relay.handleMessage, hs], rfl⟩

/-- Witness for C10: an empty username resets a previously set name. -/
theorem C10_falsy_username_resets_to_anonymous_witness :
    (Relay.handleMessage "a" (.setUsername (some ""))
        [("a", ⟨true, "Old Name", false, 0⟩)]).1 =
      [("a", ⟨true, "Anonymous", false, 0⟩)] ∧
    Relay.mget (Relay.handleMessage "a" (.setUsername (some ""))
        [("a", ⟨true, "Old Name", false, 0⟩)]).1 "a" =
      some ⟨true, "Anonymous", false, 0⟩ := by
  have h := C10_falsy_username_resets_to_anonymous
    [("a", ⟨true, "Old Name", false, 0⟩)] "a" ⟨true, "Old Name", false, 0⟩
    (some "") 0 (by decide) (Or.inr rfl)
  exact ⟨h.1, h.2.1⟩

/-- C7: a `stream-request` received while the sharer is not currently
sharing (sharing flag down or no local stream handle) is ignored
entirely: no peer connection is created, nothing is sent, and the
controller's state is unchanged. -/
theorem C7_stream_request_ignored_when_not_sharing
    (m : Share.Mgr) (viewerId : String)
    (h : m.isSharing = false ∨ m.localStream = none) :
    Share.handleStreamRequest m viewerId = (m, []) := by
  unfold Share.handleStreamRequest
  rcases h with h | h <;> simp [h]

/-- Witness for C7 at a concrete idle manager state. -/
theorem C7_stream_request_ignored_when_not_sharing_witness :
    Share.handleStreamRequest ⟨true, true, false, none, [], [], [], none⟩ "v" =
      (⟨true, true, false, none, [], [], [], none⟩, []) :=
  C7_stream_request_ignored_when_not_sharing
    ⟨true, true, false, none, [], [], [], none⟩ "v" (Or.inl rfl)

/-- C6: after `stopSharing()` returns on a connected sharer (with valid
local-stream and peer-connection handles), every track of the local
capture stream has been stopped, every peer connection that was held
has been closed, the peer-connection map is empty, the local stream
handle is cleared, the sharing flag is down, and the `stop-sharing`
announcement has been sent to the relay. -/
theorem C6_stop_sharing_teardown
    (m : Share.Mgr)
    (hconn : m.isConnected = true) (hws : m.wsOpen = true)
    (hpcs : ∀ p ∈ m.peerConnections, p.2 < m.pcs.length)
    (hstream : ∀ h, m.localStream = some h → h < m.streams.length) :
    (∀ h, m.localStream = some h →
      ∀ tr ∈ ((Share.stopSharing m).1.streams.getD h Share.dStream).tracks,
        tr.stopped = true) ∧
    (∀ p ∈ m.peerConnections,
      ((Share.stopSharing m).1.pcs.getD p.2 Share.dPC).connState = .closed) ∧
    (Share.stopSharing m).1.peerConnections = [] ∧
    (Share.stopSharing m).1.localStream = none ∧
    (Share.stopSharing m).1.isSharing = false ∧
    (Share.stopSharing m).2 = [.stopSharingMsg] := by
  refine ⟨?_, ?_, rfl, rfl, rfl, ?_⟩
  · intro h hh tr htr
    simp only [Share.stopSharing, hh] at htr
    exact Share.stopTracksAt_stopped (hstream h hh) tr htr
  · intro p hp
    simp only [Share.stopSharing]
    exact Share.closeAll_closed (List.mem_map_of_mem Prod.snd hp) (hpcs p hp)
  · simp [Share.stopSharing, hconn, Share.sendMessageM, hws]

/-- Witness for C6: a sharer with a two-track stream and two viewers
tears down completely. -/
theorem C6_stop_sharing_teardown_witness :
    ((Share.stopSharing
        ⟨true, true, true, some 0, [("v1", 0), ("v2", 1)],
          [⟨[⟨false⟩, ⟨false⟩]⟩],
          [⟨.connected, .sharerLink "v1"⟩, ⟨.connected, .sharerLink "v2"⟩],
          none⟩).1.pcs.getD 0 Share.dPC).connState = .closed ∧
    ((Share.stopSharing
        ⟨true, true, true, some 0, [("v1", 0), ("v2", 1)],
          [⟨[⟨false⟩, ⟨false⟩]⟩],
          [⟨.connected, .sharerLink "v1"⟩, ⟨.connected, .sharerLink "v2"⟩],
          none⟩).1.pcs.getD 1 Share.dPC).connState = .closed ∧
    (Share.stopSharing
        ⟨true, true, true, some 0, [("v1", 0), ("v2", 1)],
          [⟨[⟨false⟩, ⟨false⟩]⟩],
          [⟨.connected, .sharerLink "v1"⟩, ⟨.connected, .sharerLink "v2"⟩],
          none⟩).1.peerConnections = [] ∧
    (Share.stopSharing
        ⟨true, true, true, some 0, [("v1", 0), ("v2", 1)],
          [⟨[⟨false⟩, ⟨false⟩]⟩],
          [⟨.connected, .sharerLink "v1"⟩, ⟨.connected, .sharerLink "v2"⟩],
          none⟩).2 = [.stopSharingMsg] := by
  have h := C6_stop_sharing_teardown
    ⟨true, true, true, some 0, [("v1", 0), ("v2", 1)],
      [⟨[⟨false⟩, ⟨false⟩]⟩],
      [⟨.connected, .sharerLink "v1"⟩, ⟨.connected, .sharerLink "v2"⟩],
      none⟩
    rfl rfl (by decide) (by intro h hh; cases hh; decide)
  exact ⟨h.2.1 ("v1", 0) (by decide), h.2.1 ("v2", 1) (by decide),
    h.2.2.1, h.2.2.2.2.2⟩

/-- C5 counterexample: `viewUser` does not close (or even touch) a
previously open PeerLink, and `handleOffer` inserts a fresh link
without closing the existing one, so after a viewer handles offers from
sharer "A" and then sharer "B" its peer-connection map holds two links,
neither of which is closed — contradicting "at no point does the
viewer's peer-connection map contain two open links". -/
theorem C5_counterexample :
    (Share.viewUser
        (Share.handleOffer ⟨true, true, false, none, [], [], [], none⟩ "A").1
        "B").1 =
      (Share.handleOffer ⟨true, true, false, none, [], [], [], none⟩ "A").1 ∧
    (Share.handleOffer
        (Share.handleOffer ⟨true, true, false, none, [], [], [], none⟩ "A").1
        "B").1.peerConnections = [("A", 0), ("B", 1)] ∧
    ((Share.handleOffer
        (Share.handleOffer ⟨true, true, false, none, [], [], [], none⟩ "A").1
        "B").1.pcs.getD 0 Share.dPC).connState ≠ .closed ∧
    ((Share.handleOffer
        (Share.handleOffer ⟨true, true, false, none, [], [], [], none⟩ "A").1
        "B").1.pcs.getD 1 Share.dPC).connState ≠ .closed := by
  refine ⟨rfl, by decide, by decide, by decide⟩

/-- C5 (amended): the Viewer Session Controller does not close a
previously open PeerLink when a new view begins: `viewUser` only sends
`request-stream`, leaving the peer-connection map and every link's
state untouched, and `handleOffer` always creates a fresh PeerLink and
inserts it under the sender's id without closing any existing link, so
the viewer's map can hold several open links at once; the viewer's
links are closed, all together, only by `closeVideoPlayer` (also run by
`cleanup`), which closes every held connection and empties the map. -/
theorem C5_viewer_links_accumulate
    (m : Share.Mgr) (u s : String)
    (hpcs : ∀ p ∈ m.peerConnections, p.2 < m.pcs.length) :
    (Share.viewUser m u).1 = m ∧
    (Share.viewUser m u).2 = Share.sendMessageM m (.requestStream u) ∧
    (Share.handleOffer m s).1.peerConnections =
      Share.pset m.peerConnections s m.pcs.length ∧
    (Share.handleOffer m s).1.pcs = m.pcs ++ [⟨.new, .viewerLink s⟩] ∧
    (∀ p ∈ m.peerConnections,
      ((Share.closeVideoPlayer m).1.pcs.getD p.2 Share.dPC).connState = .closed) ∧
    (Share.closeVideoPlayer m).1.peerConnections = [] := by
  refine ⟨rfl, rfl, rfl, rfl, ?_, rfl⟩
  intro p hp
  simp only [Share.closeVideoPlayer]
  exact Share.closeAll_closed (List.mem_map_of_mem Prod.snd hp) (hpcs p hp)

/-- Witness for the amended C5: with one open link to "A", a new view
of "B" leaves the link to "A" in place, and `closeVideoPlayer` closes
it. -/
theorem C5_viewer_links_accumulate_witness :
    (Share.viewUser
        ⟨true, true, false, none, [("A", 0)], [], [⟨.connected, .viewerLink "A"⟩], none⟩
        "B").1 =
      ⟨true, true, false, none, [("A", 0)], [], [⟨.connected, .viewerLink "A"⟩], none⟩ ∧
    ((Share.closeVideoPlayer
        ⟨true, true, false, none, [("A", 0)], [], [⟨.connected, .viewerLink "A"⟩], none⟩).1.pcs.getD
        0 Share.dPC).connState = .closed := by
  have h := C5_viewer_links_accumulate
    ⟨true, true, false, none, [("A", 0)], [], [⟨.connected, .viewerLink "A"⟩], none⟩
    "B" "B" (by decide)
  exact ⟨h.1, h.2.2.2.2.1 ("A", 0) (by decide)⟩

/-- C8 counterexample: when a viewer-side PeerLink (created by
`handleOffer`) reaches `failed`, the registered state-change callback
only logs — the owning controller does NOT remove that link from its
map: the entry for sharer "S" is still present afterwards,
contradicting "the owning controller removes exactly that PeerLink from
its map". -/
theorem C8_counterexample :
    (Share.onConnStateChange
        ⟨true, true, false, none, [("S", 0)], [], [⟨.connected, .viewerLink "S"⟩], none⟩
        0 .failed).1.peerConnections = [("S", 0)] ∧
    Share.pget
      (Share.onConnStateChange
        ⟨true, true, false, none, [("S", 0)], [], [⟨.connected, .viewerLink "S"⟩], none⟩
        0 .failed).1.peerConnections "S" = some 0 := by
  refine ⟨by decide, by decide⟩

/-- C8 (amended): a connection-state change to `failed` or
`disconnected` is handled purely locally and per-side. On the sharer
side (links created by `handleStreamRequest`) the callback deletes
exactly that viewer's entry from the map — every other key's entry is
unchanged — refreshes the viewer-count display, leaves every other
link's state unchanged, and sends nothing to the relay; on other states
the map is unchanged. On the viewer side (links created by
`handleOffer`) the callback only logs: the link stays in the map, the
rendering sink is unchanged, every other link's state is unchanged, and
nothing is sent to the relay. -/
theorem C8_conn_state_change_local
    (m : Share.Mgr) (h : Nat) (s : Share.ConnState) (v pid : String) :
    ((m.pcs.getD h Share.dPC).role = .sharerLink v →
      (s = .disconnected ∨ s = .failed) →
      (Share.onConnStateChange m h s).1.peerConnections =
        Share.pdel m.peerConnections v ∧
      (∀ k, k ≠ v →
        Share.pget (Share.onConnStateChange m h s).1.peerConnections k =
          Share.pget m.peerConnections k)) ∧
    ((m.pcs.getD h Share.dPC).role = .sharerLink v →
      ¬(s = .disconnected ∨ s = .failed) →
      (Share.onConnStateChange m h s).1.peerConnections = m.peerConnections) ∧
    ((m.pcs.getD h Share.dPC).role = .viewerLink pid →
      (Share.onConnStateChange m h s).1.peerConnections = m.peerConnections ∧
      (Share.onConnStateChange m h s).1.remoteSink = m.remoteSink) ∧
    (∀ i, i ≠ h →
      (Share.onConnStateChange m h s).1.pcs.getD i Share.dPC =
        m.pcs.getD i Share.dPC) ∧
    (h < m.pcs.length →
      ((Share.onConnStateChange m h s).1.pcs.getD h Share.dPC).connState = s) ∧
    (Share.onConnStateChange m h s).2 = [] := by
  refine ⟨?_, ?_, ?_, ?_, ?_, ?_⟩
  · intro hrole hsd
    simp only [Share.onConnStateChange, hrole, if_pos hsd]
    exact ⟨trivial, fun k hk => Share.pget_pdel_ne m.peerConnections hk⟩
  · intro hrole hsd
    simp only [Share.onConnStateChange, hrole, if_neg hsd]
  · intro hrole
    simp only [Share.onConnStateChange, hrole]
    exact ⟨trivial, trivial⟩
  · intro i hi
    simp only [Share.onConnStateChange]
    cases hrole : (m.pcs.getD h Share.dPC).role with
    | sharerLink v' =>
        by_cases hsd : s = .disconnected ∨ s = .failed
        · simp only [if_pos hsd]
          exact Share.modifyAt_getD_ne _ hi
        · simp only [if_neg hsd]
          exact Share.modifyAt_getD_ne _ hi
    | viewerLink p' => exact Share.modifyAt_getD_ne _ hi
  · intro hlt
    simp only [Share.onConnStateChange]
    cases hrole : (m.pcs.getD h Share.dPC).role with
    | sharerLink v' =>
        by_cases hsd : s = .disconnected ∨ s = .failed
        · simp only [if_pos hsd]
          rw [Share.modifyAt_getD_self _ hlt]
        · simp only [if_neg hsd]
          rw [Share.modifyAt_getD_self _ hlt]
    | viewerLink p' => rw [Share.modifyAt_getD_self _ hlt]
  · simp only [Share.onConnStateChange]
    cases hrole : (m.pcs.getD h Share.dPC).role with
    | sharerLink v' =>
        by_cases hsd : s = .disconnected ∨ s = .failed
        · simp only [if_pos hsd]
        · simp only [if_neg hsd]
    | viewerLink p' => rfl

/-- Witness for the amended C8: a sharer with two viewers loses exactly
viewer "v1"'s entry when that link fails; "v2"'s entry and link state
survive, and nothing is sent. -/
theorem C8_conn_state_change_local_witness :
    (Share.onConnStateChange
        ⟨true, true, true, some 0, [("v1", 0), ("v2", 1)], [⟨[⟨false⟩]⟩],
          [⟨.connected, .sharerLink "v1"⟩, ⟨.connected, .sharerLink "v2"⟩], none⟩
        0 .failed).1.peerConnections = [("v2", 1)] ∧
    Share.pget
      (Share.onConnStateChange
        ⟨true, true, true, some 0, [("v1", 0), ("v2", 1)], [⟨[⟨false⟩]⟩],
          [⟨.connected, .sharerLink "v1"⟩, ⟨.connected, .sharerLink "v2"⟩], none⟩
        0 .failed).1.peerConnections "v2" = some 1 ∧
    (Share.onConnStateChange
        ⟨true, true, true, some 0, [("v1", 0), ("v2", 1)], [⟨[⟨false⟩]⟩],
          [⟨.connected, .sharerLink "v1"⟩, ⟨.connected, .sharerLink "v2"⟩], none⟩
        0 .failed).1.pcs.getD 1 Share.dPC =
      ⟨.connected, .sharerLink "v2"⟩ ∧
    (Share.onConnStateChange
        ⟨true, true, true, some 0, [("v1", 0), ("v2", 1)], [⟨[⟨false⟩]⟩],
          [⟨.connected, .sharerLink "v1"⟩, ⟨.connected, .sharerLink "v2"⟩], none⟩
        0 .failed).2 = [] := by
  have h := C8_conn_state_change_local
    ⟨true, true, true, some 0, [("v1", 0), ("v2", 1)], [⟨[⟨false⟩]⟩],
      [⟨.connected, .sharerLink "v1"⟩, ⟨.connected, .sharerLink "v2"⟩], none⟩
    0 .failed "v1" "unused"
  refine ⟨?_, ?_, h.2.2.2.1 1 (by decide), h.2.2.2.2.2⟩
  · rw [(h.1 (by decide) (Or.inr rfl)).1]; decide
  · rw [(h.1 (by decide) (Or.inr rfl)).2 "v2" (by decide)]; decide

/-- C9: when capture acquisition fails inside `startSharing` (no
capture API, no capturable sources, or `getUserMedia` rejection for the
preferred source and for the one retried source), the failure is
reported to the caller (`some` error report), no message at all — in
particular no `start-sharing` announcement — is sent to the relay (so
the relay's Directory Store cannot change), and the manager state,
including the sharing flag and the local stream handle, is exactly the
state before the call. -/
theorem C9_capture_failure_no_announcement
    (env : Share.CaptureEnv) (m : Share.Mgr)
    (hfail : Share.captureFails env = true) :
    (Share.startSharing env m).1 = m ∧
    (Share.startSharing env m).2.1 = [] ∧
    (Share.startSharing env m).2.2.isSome = true ∧
    (Share.startSharing env m).1.isSharing = m.isSharing ∧
    (Share.startSharing env m).1.localStream = m.localStream := by
  have hmain : (Share.startSharing env m).1 = m ∧
      (Share.startSharing env m).2.1 = [] ∧
      (Share.startSharing env m).2.2.isSome = true := by
    by_cases hapi : env.apiAvailable = true
    · simp only [Share.captureFails, hapi, Bool.not_true, Bool.false_or] at hfail
      cases hsrc : env.sources with
      | nil => simp [Share.startSharing, hapi, hsrc]
      | cons s0 rest =>
          rw [hsrc] at hfail
          simp only [Share.startSharing, hapi, Bool.not_true, Bool.false_eq_true,
            if_false, hsrc]
          cases hcap : env.capture
              ((List.find? (fun s => s.id.startsWith "screen") (s0 :: rest)).getD s0).id with
          | some vs => simp [hcap] at hfail
          | none =>
              simp only [hcap] at hfail
              cases hrest : rest with
              | nil => simp [hcap, hrest]
              | cons s1 t =>
                  rw [hrest] at hfail
                  simp only [Option.isNone_iff_eq_none] at hfail
                  simp [hcap, hrest, hfail]
    · have hapi' : env.apiAvailable = false := by
        cases h : env.apiAvailable
        · rfl
        · exact absurd h hapi
      simp [Share.startSharing, hapi']
  exact ⟨hmain.1, hmain.2.1, hmain.2.2, by rw [hmain.1], by rw [hmain.1]⟩

/-- Witness for C9: one capturable screen source whose capture is
rejected — no announcement, error reported, state untouched. -/
theorem C9_capture_failure_no_announcement_witness :
    (Share.startSharing
        ⟨true, [⟨"screen:0", "Screen 1"⟩], fun _ => none, none⟩
        ⟨true, true, false, none, [], [], [], none⟩).1 =
      ⟨true, true, false, none, [], [], [], none⟩ ∧
    (Share.startSharing
        ⟨true, [⟨"screen:0", "Screen 1"⟩], fun _ => none, none⟩
        ⟨true, true, false, none, [], [], [], none⟩).2.1 = [] ∧
    (Share.startSharing
        ⟨true, [⟨"screen:0", "Screen 1"⟩], fun _ => none, none⟩
        ⟨true, true, false, none, [], [], [], none⟩).2.2.isSome = true := by
  have h := C9_capture_failure_no_announcement
    ⟨true, [⟨"screen:0", "Screen 1"⟩], fun _ => none, none⟩
    ⟨true, true, false, none, [], [], [], none⟩ (by rfl)
  exact ⟨h.1, h.2.1, h.2.2.1⟩
